import Mathlib

/-!
Shallow embedding of `src/google-images-downloader.py` (class
`GoogleImagesScraper`): the extract → filter → download pipeline.

Strings are modelled as lists of Unicode code points (`List Nat`); all
string operations used by the source (`str.lower`, `str.split('.')[-1]`,
`str.zfill`, `str.replace`, `os.path.join`, `str(int)`) are embedded for
the code-point alphabet, which is faithful to Python for the ASCII data
this program manipulates.

External effects (HTTP page fetch, per-image network transfer, directory
listing) are an explicit environment `Env`; the mutable object state of
the scraper (`self.*` fields plus the files this run has created in the
output directory) is the record `Scraper`, threaded through each
operation and returned alongside the result, so that mutations performed
before an uncaught exception survive the abort, as they do in Python.
-/

/-- Strings as lists of code points. -/
abbrev Str := List Nat

/-- Code points of a Lean string literal, for writing concrete inputs. -/
def chars (s : String) : Str := s.data.map Char.toNat

/-- Python `str.lower` on one code point, for the ASCII range: uppercase
letters 65..90 map to 97..122, everything else is unchanged. -/
def lowerChar (c : Nat) : Nat := if 65 ≤ c ∧ c ≤ 90 then c + 32 else c

/-- Python `str.lower` (ASCII range). -/
def lowerStr (s : Str) : Str := s.map lowerChar

/-- Python `image_url.split('.')[-1]`: the substring after the last `.`
(code point 46) of the whole string; the whole string when it has no dot. -/
def extAfterLastDot (s : Str) : Str := (s.reverse.takeWhile (fun c => c ≠ 46)).reverse

/-- Python `str.zfill w` for a non-negative numeral: left-pad with `0`
(code point 48) up to width `w`. -/
def zfillPad (s : Str) (w : Nat) : Str := List.replicate (w - s.length) 48 ++ s

/-- Decimal rendering of a natural number, fuel-indexed so that it is
structurally recursive (and hence kernel-evaluable). -/
def natToStrCore (fuel n : Nat) : Str :=
  match fuel with
  | 0 => []
  | f + 1 => if n < 10 then [48 + n] else natToStrCore f (n / 10) ++ [48 + n % 10]

/-- Python `str(n)` for a natural number `n`. -/
def natToStr (n : Nat) : Str := natToStrCore (n + 1) n

/-- Python `os.path.join a b` (POSIX): `b` absolute replaces `a`; empty
`a` yields `b`; a separator (code point 47) is inserted unless `a`
already ends in one. -/
def pathJoin (a b : Str) : Str :=
  if b.head? = some 47 then b
  else if a = [] then b
  else if a.getLast? = some 47 then a ++ b
  else a ++ 47 :: b

/-- Python `query.replace(' ', '_')`: space (32) becomes underscore (95). -/
def underscoreQuery (q : Str) : Str := q.map (fun c => if c = 32 then 95 else c)

/-- One file created by the run in the output directory. `complete` is
false when only part of the body was streamed before the transfer died. -/
structure FileEntry where
  name : Str
  complete : Bool
deriving DecidableEq

/-- Outcome of `self.session.get(image_url, stream=True, verify=False)`
followed by the chunked write, classified by where the transfer fails and
whether the raised exception is of the class named in the handler
(`except ConnectionError`). `otherError` is any exception the handler
does not catch. -/
inductive NetOutcome where
  | success
  | connErrorBeforeOpen
  | connErrorAfterOpen
  | otherError
deriving DecidableEq

/-- The external world of one run: `listing d` is `len(os.listdir(d))`,
`page q` is the ordered list of `rg_meta` div payloads the fetched search
document holds for query `q`, each already resolved to either the decoded
`ou` URL or a decode failure (`json.loads`/key lookup raising), and
`net u` is the transfer outcome for image URL `u`. -/
structure Env where
  listing : Str → Nat
  page : Str → List (Except Unit Str)
  net : Str → NetOutcome

/-- The scraper object state: the `self.*` fields of `GoogleImagesScraper`
(`prefix`/`suffix` are named `pre`/`suf` here), plus `files`, the files
this run has created in the resolved output directory. -/
structure Scraper where
  allowed_exts : List Str
  output_dir : Str
  pre : Str
  suf : Str
  limit : Nat
  zfill : Nat
  counter : Nat
  files : List FileEntry
deriving DecidableEq

/-- `GoogleImagesScraper.__init__`: normalizes prefix and suffix (empty
stays empty, otherwise a `-`, code point 45, is appended / prepended),
sets `self._zfill = len(str(limit))` and `self.counter = 0`. -/
def initScraper (exts : List Str) (output_dir : Str) (p s : Str) (limit : Nat) : Scraper :=
  { allowed_exts := exts
    output_dir := output_dir
    pre := if p = [] then [] else p ++ [45]
    suf := if s = [] then [] else 45 :: s
    limit := limit
    zfill := (natToStr limit).length
    counter := 0
    files := [] }

/-- The default `exts` argument of `__init__`: `['jpg','jpeg','png','bmp']`. -/
def defaultExts : List Str := [chars "jpg", chars "jpeg", chars "png", chars "bmp"]

/-- `GoogleImagesScraper._download_image`: extract the extension as
`image_url.split('.')[-1]`; if its lowercasing is not in
`self.allowed_exts`, return with nothing changed. Otherwise build
`local_filename` from the current counter + 1, increment `self.counter`
(before the transfer is attempted), then stream the body: on success the
complete file exists; on a `ConnectionError` raised before the file was
opened nothing is written and the error is only logged; on a
`ConnectionError` raised mid-stream the partially written file is left on
disk (the handler does not delete it) and the error is only logged; any
other exception propagates out (`Except.error`). -/
def download_image (env : Env) (s : Scraper) (image_url : Str) : Scraper × Except Unit Unit :=
  let extension := extAfterLastDot image_url
  if lowerStr extension ∈ s.allowed_exts then
    let local_filename :=
      pathJoin s.output_dir
        (s.pre ++ zfillPad (natToStr (s.counter + 1)) s.zfill ++ s.suf ++ 46 :: extension)
    let s' := { s with counter := s.counter + 1 }
    match env.net image_url with
    | .success => ({ s' with files := s'.files ++ [⟨local_filename, true⟩] }, .ok ())
    | .connErrorBeforeOpen => (s', .ok ())
    | .connErrorAfterOpen => ({ s' with files := s'.files ++ [⟨local_filename, false⟩] }, .ok ())
    | .otherError => (s', .error ())
  else (s, .ok ())

/-- The `for div in image_divs` loop of `download_images`: while
`images_down < self.limit`, decode the div payload (a decode failure
raises and aborts the run), call `_download_image` on the URL, and
increment `images_down` — once per processed div, whatever
`_download_image` did. When the guard fails, return `images_down`. -/
def download_loop (env : Env) : List (Except Unit Str) → Scraper → Nat → Scraper × Except Unit Nat
  | [], s, images_down => (s, .ok images_down)
  | d :: divs, s, images_down =>
    if images_down < s.limit then
      match d with
      | .error _ => (s, .error ())
      | .ok url =>
        match download_image env s url with
        | (s', .ok _) => download_loop env divs s' (images_down + 1)
        | (s', .error _) => (s', .error ())
    else (s, .ok images_down)

/-- Resolution of the output directory at the top of `download_images`:
an explicit argument is taken as is; otherwise the underscore-escaped
query is joined onto the current `self.output_dir`. -/
def resolvedOutputDir (s : Scraper) (query : Str) (od : Option Str) : Str :=
  match od with
  | some d => d
  | none => pathJoin s.output_dir (underscoreQuery query)

/-- `GoogleImagesScraper.download_images`: resolve and store
`self.output_dir` (a mutation of the object, kept even if the run later
aborts), create the directory (errors there are swallowed by the broad
`except OSError`), seed `self.counter = len(os.listdir(self.output_dir))`,
fetch the page, and run the download loop from `images_down = 0`. The
result component is `images_down` (the elapsed-time component of the
Python pair is wall-clock time, outside the model); `Except.error` is the
run aborting with an uncaught exception, in which case Python returns
nothing to the caller. -/
def download_images (env : Env) (s : Scraper) (query : Str) (output_dir : Option Str) :
    Scraper × Except Unit Nat :=
  let s₁ := { s with output_dir := resolvedOutputDir s query output_dir }
  let s₂ := { s₁ with counter := env.listing s₁.output_dir, files := [] }
  download_loop env (env.page query) s₂ 0

/-- Modelled from the spec (claim C8 compares the code against this):
the path component of a URL — what stands after the authority part
(everything up to and including the first `://`, when present) from its
first `/`, cut at the query or fragment delimiter (`?`, 63, or `#`, 35). -/
def afterSchemeSep : Str → Option Str
  | [] => none
  | 58 :: 47 :: 47 :: rest => some rest
  | _ :: rest => afterSchemeSep rest

/-- Modelled from the spec: the URL path (see `afterSchemeSep`). -/
def urlPathOf (url : Str) : Str :=
  ((afterSchemeSep url).getD url).dropWhile (fun c => c ≠ 47)
    |>.takeWhile (fun c => c != 63 && c != 35)

/-! ### Unfolding lemmas for the loop -/

/-- Loop step: limit reached, return the running count. -/
theorem download_loop_stop (env : Env) (d : Except Unit Str) (divs : List (Except Unit Str))
    (s : Scraper) (n : Nat) (h : ¬ n < s.limit) :
    download_loop env (d :: divs) s n = (s, .ok n) := by
  unfold download_loop
  rw [if_neg h]

/-- Loop step: under the limit, a payload that fails to decode aborts. -/
theorem download_loop_err (env : Env) (e : Unit) (divs : List (Except Unit Str))
    (s : Scraper) (n : Nat) (h : n < s.limit) :
    download_loop env (.error e :: divs) s n = (s, .error ()) := by
  unfold download_loop
  rw [if_pos h]

/-- Loop step: under the limit, a decoded URL is handed to
`_download_image` and the attempt counter advances by one. -/
theorem download_loop_ok_step (env : Env) (url : Str) (divs : List (Except Unit Str))
    (s : Scraper) (n : Nat) (h : n < s.limit) :
    download_loop env (.ok url :: divs) s n =
      (match download_image env s url with
       | (s', .ok _) => download_loop env divs s' (n + 1)
       | (s', .error _) => (s', .error ())) := by
  conv_lhs => unfold download_loop
  rw [if_pos h]

/-! ### Invariance lemmas for one `_download_image` call -/

/-- `_download_image` never touches the configuration fields. -/
theorem download_image_config (env : Env) (s : Scraper) (url : Str) :
    (download_image env s url).1.limit = s.limit
    ∧ (download_image env s url).1.output_dir = s.output_dir
    ∧ (download_image env s url).1.allowed_exts = s.allowed_exts
    ∧ (download_image env s url).1.pre = s.pre
    ∧ (download_image env s url).1.suf = s.suf
    ∧ (download_image env s url).1.zfill = s.zfill := by
  unfold download_image
  by_cases h : lowerStr (extAfterLastDot url) ∈ s.allowed_exts
  · rw [if_pos h]
    cases henv : env.net url <;> exact ⟨rfl, rfl, rfl, rfl, rfl, rfl⟩
  · rw [if_neg h]
    exact ⟨rfl, rfl, rfl, rfl, rfl, rfl⟩

/-- A rejected candidate changes nothing at all. -/
theorem download_image_rejected (env : Env) (s : Scraper) (url : Str)
    (h : lowerStr (extAfterLastDot url) ∉ s.allowed_exts) :
    download_image env s url = (s, .ok ()) := by
  unfold download_image
  rw [if_neg h]

/-- An accepted candidate advances the counter by one, whatever the
transfer outcome. -/
theorem download_image_accepted_counter (env : Env) (s : Scraper) (url : Str)
    (h : lowerStr (extAfterLastDot url) ∈ s.allowed_exts) :
    (download_image env s url).1.counter = s.counter + 1 := by
  unfold download_image
  rw [if_pos h]
  cases henv : env.net url <;> rfl

/-- The counter never decreases across one `_download_image` call. -/
theorem download_image_counter_mono (env : Env) (s : Scraper) (url : Str) :
    s.counter ≤ (download_image env s url).1.counter := by
  unfold download_image
  by_cases h : lowerStr (extAfterLastDot url) ∈ s.allowed_exts
  · rw [if_pos h]
    cases henv : env.net url <;> exact Nat.le_succ _
  · rw [if_neg h]

/-! ### Lemmas about the download loop -/

/-- The loop never touches the configuration fields. -/
theorem download_loop_config (env : Env) (divs : List (Except Unit Str)) (s : Scraper)
    (n : Nat) :
    (download_loop env divs s n).1.limit = s.limit
    ∧ (download_loop env divs s n).1.output_dir = s.output_dir := by
  induction divs generalizing s n with
  | nil => exact ⟨rfl, rfl⟩
  | cons d divs ih =>
    by_cases hlt : n < s.limit
    · cases d with
      | error e =>
        rw [download_loop_err env e divs s n hlt]
        exact ⟨rfl, rfl⟩
      | ok url =>
        rw [download_loop_ok_step env url divs s n hlt]
        rcases hdi : download_image env s url with ⟨s', r⟩
        have hc := download_image_config env s url
        rw [hdi] at hc
        cases r with
        | ok u =>
          have hrec := ih s' (n + 1)
          exact ⟨hrec.1.trans hc.1, hrec.2.trans hc.2.1⟩
        | error e => exact ⟨hc.1, hc.2.1⟩
    · rw [download_loop_stop env d divs s n hlt]
      exact ⟨rfl, rfl⟩

/-- The loop's counter never decreases. -/
theorem download_loop_counter_mono (env : Env) (divs : List (Except Unit Str)) (s : Scraper)
    (n : Nat) : s.counter ≤ (download_loop env divs s n).1.counter := by
  induction divs generalizing s n with
  | nil => exact Nat.le_refl _
  | cons d divs ih =>
    by_cases hlt : n < s.limit
    · cases d with
      | error e =>
        rw [download_loop_err env e divs s n hlt]
      | ok url =>
        rw [download_loop_ok_step env url divs s n hlt]
        rcases hdi : download_image env s url with ⟨s', r⟩
        have hm := download_image_counter_mono env s url
        rw [hdi] at hm
        cases r with
        | ok u => exact hm.trans (ih s' (n + 1))
        | error e => exact hm
    · rw [download_loop_stop env d divs s n hlt]

/-- When the loop returns normally, the returned `images_down` is the
starting value plus one per processed div, capped by the limit:
`min limit (n + number of divs)` whenever `n ≤ limit`. -/
theorem download_loop_count (env : Env) (divs : List (Except Unit Str)) (s : Scraper)
    (n c : Nat) (hn : n ≤ s.limit) (hok : (download_loop env divs s n).2 = .ok c) :
    c = min s.limit (n + divs.length) := by
  induction divs generalizing s n with
  | nil =>
    unfold download_loop at hok
    simp only [Except.ok.injEq] at hok
    simp only [List.length_nil, Nat.add_zero]
    omega
  | cons d divs ih =>
    by_cases hlt : n < s.limit
    · cases d with
      | error e =>
        rw [download_loop_err env e divs s n hlt] at hok
        simp at hok
      | ok url =>
        rw [download_loop_ok_step env url divs s n hlt] at hok
        rcases hdi : download_image env s url with ⟨s', r⟩
        rw [hdi] at hok
        have hc := download_image_config env s url
        rw [hdi] at hc
        cases r with
        | ok u =>
          have hrec := ih s' (n + 1) (by rw [hc.1]; omega) hok
          rw [hc.1] at hrec
          simp only [List.length_cons] at hrec ⊢
          omega
        | error e => simp at hok
    · rw [download_loop_stop env d divs s n hlt] at hok
      simp only [Except.ok.injEq] at hok
      simp only [List.length_cons]
      omega

/-- When every payload decodes and no transfer raises an uncaught
exception, the loop returns normally. -/
theorem download_loop_total (env : Env) (divs : List (Except Unit Str)) (s : Scraper)
    (n : Nat) (hdec : ∀ d ∈ divs, ∃ u, d = .ok u)
    (hnet : ∀ u, Except.ok u ∈ divs → env.net u ≠ .otherError) :
    ∃ c, (download_loop env divs s n).2 = .ok c := by
  induction divs generalizing s n with
  | nil => exact ⟨n, rfl⟩
  | cons d divs ih =>
    by_cases hlt : n < s.limit
    · rcases hdec d (List.mem_cons_self d divs) with ⟨u, rfl⟩
      rw [download_loop_ok_step env u divs s n hlt]
      rcases hdi : download_image env s u with ⟨s', r⟩
      cases r with
      | ok v =>
        exact ih s' (n + 1) (fun d hd => hdec d (List.mem_cons_of_mem _ hd))
          (fun w hw => hnet w (List.mem_cons_of_mem _ hw))
      | error e =>
        exfalso
        have hne : env.net u ≠ .otherError := hnet u (List.mem_cons_self _ _)
        unfold download_image at hdi
        by_cases hmem : lowerStr (extAfterLastDot u) ∈ s.allowed_exts
        · rw [if_pos hmem] at hdi
          cases henv : env.net u <;> rw [henv] at hdi
          · simp at hdi
          · simp at hdi
          · simp at hdi
          · exact hne henv
        · rw [if_neg hmem] at hdi
          simp at hdi
    · rw [download_loop_stop env d divs s n hlt]
      exact ⟨n, rfl⟩

/-! ### Lemmas about the whole-run function -/

/-- The run's final `output_dir` is the resolved one — the loop never
changes it — and it is stored in the object state. -/
theorem download_images_output_dir (env : Env) (s : Scraper) (q : Str) (od : Option Str) :
    (download_images env s q od).1.output_dir = resolvedOutputDir s q od := by
  unfold download_images
  exact (download_loop_config env (env.page q) _ 0).2

/-- The run's final counter is at least the seeded value
`len(os.listdir(resolved directory))`. -/
theorem download_images_counter_ge_seed (env : Env) (s : Scraper) (q : Str) (od : Option Str) :
    env.listing (resolvedOutputDir s q od) ≤ (download_images env s q od).1.counter := by
  have := download_loop_counter_mono env (env.page q)
    { s with output_dir := resolvedOutputDir s q od,
             counter := env.listing (resolvedOutputDir s q od), files := [] } 0
  simpa [download_images] using this

/-- When the run returns normally its count is
`min limit (number of divs on the page)`. -/
theorem download_images_count (env : Env) (s : Scraper) (q : Str) (od : Option Str) (c : Nat)
    (hok : (download_images env s q od).2 = .ok c) :
    c = min s.limit (env.page q).length := by
  unfold download_images at hok
  have := download_loop_count env (env.page q)
    { s with output_dir := resolvedOutputDir s q od, counter := env.listing (resolvedOutputDir s q od), files := [] }
    0 c (Nat.zero_le _) hok
  simpa using this

/-! ### Decimal length, extension extraction, lowercasing -/

/-- `natToStrCore` with enough fuel has as many characters as the number
has decimal digits. -/
theorem natToStrCore_length (fuel : Nat) : ∀ n : Nat, 1 ≤ n → n < 10 ^ fuel →
    (natToStrCore fuel n).length = (Nat.digits 10 n).length := by
  induction fuel with
  | zero =>
    intro n h1 hlt
    simp at hlt
    omega
  | succ f ih =>
    intro n h1 hlt
    unfold natToStrCore
    by_cases h10 : n < 10
    · rw [if_pos h10]
      rw [Nat.digits_def' (by norm_num : 1 < 10) (by omega : 0 < n)]
      have : n / 10 = 0 := Nat.div_eq_of_lt h10
      rw [this]
      simp
    · rw [if_neg h10]
      have hdiv1 : 1 ≤ n / 10 := Nat.le_div_iff_mul_le (by norm_num) |>.2 (by omega)
      have hdivlt : n / 10 < 10 ^ f := by
        rw [Nat.div_lt_iff_lt_mul (by norm_num : 0 < 10)]
        calc n < 10 ^ (f + 1) := hlt
          _ = 10 ^ f * 10 := by rw [Nat.pow_succ]
      rw [List.length_append, ih (n / 10) hdiv1 hdivlt,
        Nat.digits_def' (by norm_num : 1 < 10) (by omega : 0 < n)]
      simp

/-- `len(str(n))` is the decimal digit count of `n`, for positive `n`. -/
theorem natToStr_length (n : Nat) (h : 1 ≤ n) :
    (natToStr n).length = (Nat.digits 10 n).length := by
  unfold natToStr
  exact natToStrCore_length (n + 1) n h
    (lt_of_lt_of_le (Nat.lt_pow_self (by norm_num) n) (Nat.pow_le_pow_right (by norm_num) (Nat.le_succ n)))

/-- `takeWhile` of "not a dot" swallows a dot-free block and stops at the
dot that follows it. -/
theorem takeWhile_no_dot (l r : Str) (hl : ∀ c ∈ l, c ≠ 46) :
    (l ++ 46 :: r).takeWhile (fun c => c ≠ 46) = l := by
  induction l with
  | nil => simp [List.takeWhile]
  | cons x xs ih =>
    have hx : x ≠ 46 := hl x (List.mem_cons_self _ _)
    rw [List.cons_append, List.takeWhile_cons, if_pos (by simpa using hx)]
    rw [ih (fun c hc => hl c (List.mem_cons_of_mem _ hc))]

/-- The extension the code extracts from `u ++ "." ++ t`, with `t`
dot-free, is exactly `t`: `split('.')[-1]` takes the substring after the
*last* dot of its whole input. -/
theorem extAfterLastDot_append (u t : Str) (ht : 46 ∉ t) :
    extAfterLastDot (u ++ 46 :: t) = t := by
  unfold extAfterLastDot
  rw [List.reverse_append, List.reverse_cons, List.append_assoc, List.singleton_append]
  rw [takeWhile_no_dot t.reverse u.reverse
    (fun c hc h46 => ht (h46 ▸ List.mem_reverse.mp hc))]
  exact List.reverse_reverse t

/-- Lowercasing never produces an ASCII uppercase letter. -/
theorem lowerStr_no_upper (s : Str) (c : Nat) (hc : c ∈ lowerStr s) :
    ¬ (65 ≤ c ∧ c ≤ 90) := by
  unfold lowerStr at hc
  rcases List.mem_map.mp hc with ⟨c₀, _, rfl⟩
  unfold lowerChar
  by_cases h : 65 ≤ c₀ ∧ c₀ ≤ 90
  · rw [if_pos h]
    omega
  · rw [if_neg h]
    omega

/-- Joining a non-empty relative component onto a non-empty base strictly
extends the base. -/
theorem pathJoin_extends (a b : Str) (hb : b.head? ≠ some 47) (hbne : b ≠ [])
    (ha : a ≠ []) : ∃ rest, rest ≠ [] ∧ pathJoin a b = a ++ rest := by
  unfold pathJoin
  rw [if_neg hb, if_neg ha]
  by_cases hlast : a.getLast? = some 47
  · rw [if_pos hlast]
    exact ⟨b, hbne, rfl⟩
  · rw [if_neg hlast]
    exact ⟨47 :: b, by simp, rfl⟩

/-! ### Concrete fixtures -/

/-- A page with a rejected-extension candidate followed by an allowed one;
every transfer would succeed. -/
def envRejectThenGood : Env :=
  ⟨fun _ => 0, fun _ => [.ok (chars "a.webp"), .ok (chars "b.jpg")], fun _ => .success⟩

/-- One allowed candidate whose transfer dies before the file is opened. -/
def envFailBefore : Env := ⟨fun _ => 0, fun _ => [.ok (chars "a.jpg")], fun _ => .connErrorBeforeOpen⟩

/-- One allowed candidate whose transfer dies mid-stream. -/
def envFailDuring : Env := ⟨fun _ => 0, fun _ => [.ok (chars "a.jpg")], fun _ => .connErrorAfterOpen⟩

/-- A good payload, then a payload that fails to decode, then another good one. -/
def envBadPayload : Env :=
  ⟨fun _ => 0, fun _ => [.ok (chars "a.jpg"), .error (), .ok (chars "b.jpg")], fun _ => .success⟩

/-- A page holding a single undecodable payload. -/
def envOneBad : Env := ⟨fun _ => 0, fun _ => [.error ()], fun _ => .success⟩

/-- Two allowed candidates, all transfers succeed. -/
def envAllGood : Env :=
  ⟨fun _ => 0, fun _ => [.ok (chars "a.jpg"), .ok (chars "b.jpg")], fun _ => .success⟩

/-- Default scraper with limit 1 and empty base directory. -/
def scraperLim1 : Scraper := initScraper defaultExts [] [] [] 1

/-- Default scraper with limit 3. -/
def scraperLim3 : Scraper := initScraper defaultExts [] [] [] 3

/-- Default scraper with limit 10. -/
def scraperLim10 : Scraper := initScraper defaultExts [] [] [] 10

/-- Scraper whose allow-set holds the uppercase entry `JPG`. -/
def scraperUpper : Scraper := initScraper [chars "JPG"] [] [] [] 5

/-! ### C1 -/

/-- C1 counterexample: limit 1, page = a `.webp` candidate then a `.jpg`
one, all transfers would succeed. The rejected first candidate consumes
the limit: the run ends with no file ever written — the allowed second
candidate was never attempted — yet reports 1. So a rejected candidate
does count toward the limit and does block later candidates. -/
theorem limit_consumed_by_rejected_candidate_cex :
    (download_images envRejectThenGood scraperLim1 (chars "q") none).1.files = []
    ∧ (download_images envRejectThenGood scraperLim1 (chars "q") none).2 = .ok 1 :=
  ⟨rfl, rfl⟩

/-- C1 (amended): the limit is evaluated against the number of candidates
processed, not against successful downloads: every candidate handed to
`_download_image` — rejected and failed ones included — counts toward the
limit, so a normally returning run reports exactly
`min limit (number of metadata elements)`. -/
theorem download_count_counts_processed_candidates (env : Env) (s : Scraper) (q : Str)
    (od : Option Str) (c : Nat) (hok : (download_images env s q od).2 = .ok c) :
    c = min s.limit (env.page q).length :=
  download_images_count env s q od c hok

/-- C1 witness: the counterexample run, instantiated in the amended
theorem: it reports `min 1 2 = 1`. -/
theorem download_count_counts_processed_candidates_witness :
    (1 : Nat) = min scraperLim1.limit (envRejectThenGood.page (chars "q")).length :=
  download_count_counts_processed_candidates envRejectThenGood scraperLim1 (chars "q") none 1 rfl

/-! ### C2 -/

/-- C2 counterexample: one allowed candidate whose download dies before
anything is written (a failed attempt, no success). The counter still
advances from its seed 0 to 1 — so the counter is not incremented "once
per successful download" and is not "left unchanged by a failed download
attempt". -/
theorem counter_advances_on_failed_download_cex :
    (download_images envFailBefore scraperLim1 (chars "q") none).1.counter = 1
    ∧ (download_images envFailBefore scraperLim1 (chars "q") none).1.files = []
    ∧ (download_images envFailBefore scraperLim1 (chars "q") none).2 = .ok 1 :=
  ⟨rfl, rfl, rfl⟩

/-- C2 (amended): the counter is seeded from the number of pre-existing
entries in the resolved output directory, is incremented exactly once per
candidate accepted by the extension filter — whether or not the download
then succeeds — is unchanged for rejected candidates, and is monotonically
non-decreasing, so the run ends with a counter no smaller than the seed. -/
theorem counter_seed_and_accepted_increment (env : Env) (s : Scraper) (url q : Str)
    (od : Option Str) (divs : List (Except Unit Str)) (n : Nat) :
    (lowerStr (extAfterLastDot url) ∈ s.allowed_exts →
        (download_image env s url).1.counter = s.counter + 1)
    ∧ (lowerStr (extAfterLastDot url) ∉ s.allowed_exts →
        download_image env s url = (s, .ok ()))
    ∧ s.counter ≤ (download_loop env divs s n).1.counter
    ∧ download_images env s q od = download_loop env (env.page q)
        { s with output_dir := resolvedOutputDir s q od,
                 counter := env.listing (resolvedOutputDir s q od), files := [] } 0
    ∧ env.listing (resolvedOutputDir s q od) ≤ (download_images env s q od).1.counter :=
  ⟨fun h => download_image_accepted_counter env s url h,
   fun h => download_image_rejected env s url h,
   download_loop_counter_mono env divs s n,
   rfl,
   download_images_counter_ge_seed env s q od⟩

/-- C2 witness: an accepted candidate with a failing transfer advances
the counter by one; a rejected candidate leaves the state untouched. -/
theorem counter_seed_and_accepted_increment_witness :
    (download_image envFailBefore scraperLim1 (chars "a.jpg")).1.counter
        = scraperLim1.counter + 1
    ∧ download_image envFailBefore scraperLim1 (chars "a.webp") = (scraperLim1, .ok ()) :=
  ⟨(counter_seed_and_accepted_increment envFailBefore scraperLim1 (chars "a.jpg")
      (chars "q") none [] 0).1 (by decide),
   (counter_seed_and_accepted_increment envFailBefore scraperLim1 (chars "a.webp")
      (chars "q") none [] 0).2.1 (by decide)⟩

/-! ### C3 -/

/-- C3 counterexample: a good payload, an undecodable payload, a good
payload, limit 10. The first candidate is downloaded, then the malformed
element aborts the whole run (`json.loads` raises out of
`download_images`): the third, valid element is never extracted or
attempted — one bad entry does abort the whole extraction. -/
theorem malformed_payload_aborts_run_cex :
    (download_images envBadPayload scraperLim10 (chars "q") none).2 = .error ()
    ∧ (download_images envBadPayload scraperLim10 (chars "q") none).1.files
        = [⟨chars "q/01.jpg", true⟩] :=
  ⟨rfl, rfl⟩

/-- C3 (amended): a metadata element with an undecodable payload is not
skipped: as soon as the loop reaches it (while still under the limit) the
decode exception propagates, the run aborts, and no later element is
processed; in particular a page whose first element is malformed aborts
immediately. -/
theorem malformed_payload_aborts (env : Env) (e : Unit) (divs rest : List (Except Unit Str))
    (s : Scraper) (n : Nat) (q : Str) (od : Option Str) :
    (n < s.limit → download_loop env (.error e :: divs) s n = (s, .error ()))
    ∧ (env.page q = .error e :: rest → 0 < s.limit →
        (download_images env s q od).2 = .error ()) := by
  constructor
  · intro h
    exact download_loop_err env e divs s n h
  · intro hpage hlim
    unfold download_images
    rw [hpage]
    rw [download_loop_err env e rest _ 0 (by simpa using hlim)]

/-- C3 witness: with one undecodable element and limit 1, the loop and
the whole run abort. -/
theorem malformed_payload_aborts_witness :
    download_loop envOneBad [.error (), .ok (chars "b.jpg")] scraperLim1 0
        = (scraperLim1, .error ())
    ∧ (download_images envOneBad scraperLim1 (chars "q") none).2 = .error () :=
  ⟨(malformed_payload_aborts envOneBad () [.ok (chars "b.jpg")] [] scraperLim1 0
      (chars "q") none).1 (by decide),
   (malformed_payload_aborts envOneBad () [] [] scraperLim1 0 (chars "q") none).2
      rfl (by decide)⟩

/-! ### C4 -/

/-- C4 counterexample: one accepted candidate whose connection dies
mid-stream. The run proceeds and returns, but the partially written file
`q/1.jpg` is still in the output directory afterwards — the handler does
not remove it on that exit path. -/
theorem partial_file_left_after_conn_failure_cex :
    (download_images envFailDuring scraperLim3 (chars "q") none).1.files
        = [⟨chars "q/1.jpg", false⟩]
    ∧ (download_images envFailDuring scraperLim3 (chars "q") none).2 = .ok 1 :=
  ⟨rfl, rfl⟩

/-- C4 (amended): a connection failure caught by the per-candidate
handler is never fatal — `_download_image` returns normally and the
pipeline proceeds to the next candidate — but the partially written
destination file is not removed: it stays in the output directory as an
incomplete file. -/
theorem conn_failure_nonfatal_but_partial_file_remains (env : Env) (s : Scraper) (url : Str)
    (hacc : lowerStr (extAfterLastDot url) ∈ s.allowed_exts)
    (hnet : env.net url = .connErrorAfterOpen) :
    download_image env s url =
      ({ s with counter := s.counter + 1,
                files := s.files ++ [⟨pathJoin s.output_dir
                  (s.pre ++ zfillPad (natToStr (s.counter + 1)) s.zfill ++ s.suf
                    ++ 46 :: extAfterLastDot url), false⟩] }, .ok ()) := by
  unfold download_image
  rw [if_pos hacc, hnet]

/-- C4 witness: the mid-stream failure on `a.jpg` leaves `q/1.jpg`
incomplete on disk and returns normally. -/
theorem conn_failure_nonfatal_but_partial_file_remains_witness :
    download_image envFailDuring scraperLim3 (chars "a.jpg") =
      ({ scraperLim3 with
          counter := scraperLim3.counter + 1,
          files := scraperLim3.files ++ [⟨pathJoin scraperLim3.output_dir
            (scraperLim3.pre ++ zfillPad (natToStr (scraperLim3.counter + 1))
              scraperLim3.zfill ++ scraperLim3.suf
              ++ 46 :: extAfterLastDot (chars "a.jpg")), false⟩] }, .ok ()) :=
  conn_failure_nonfatal_but_partial_file_remains envFailDuring scraperLim3 (chars "a.jpg")
    (by decide) rfl

/-! ### C5 -/

/-- C5 counterexample: a page holding a single undecodable payload. The
run terminates with an uncaught exception and never delivers a
`(count, elapsed)` pair to the caller. -/
theorem no_result_on_malformed_payload_cex :
    (download_images envOneBad scraperLim1 (chars "q") none).2 = .error () := rfl

/-- C5 (amended): `download_images` delivers a definite result pair
whenever every metadata payload on the page decodes and no download
raises an exception outside the caught `ConnectionError` class; a
malformed payload, or an uncaught transfer exception, aborts the run
without a result. -/
theorem result_delivered_when_payloads_decode (env : Env) (s : Scraper) (q : Str)
    (od : Option Str) (hdec : ∀ d ∈ env.page q, ∃ u, d = .ok u)
    (hnet : ∀ u, Except.ok u ∈ env.page q → env.net u ≠ .otherError) :
    ∃ c, (download_images env s q od).2 = .ok c := by
  have := download_loop_total env (env.page q)
    { s with output_dir := resolvedOutputDir s q od,
             counter := env.listing (resolvedOutputDir s q od), files := [] } 0 hdec hnet
  simpa [download_images] using this

/-- C5 witness: an all-good page yields a definite count. -/
theorem result_delivered_when_payloads_decode_witness :
    ∃ c, (download_images envAllGood scraperLim10 (chars "q") none).2 = .ok c :=
  result_delivered_when_payloads_decode envAllGood scraperLim10 (chars "q") none
    (by intro d hd
        rcases List.mem_cons.mp hd with rfl | hd
        · exact ⟨_, rfl⟩
        rcases List.mem_cons.mp hd with rfl | hd
        · exact ⟨_, rfl⟩
        cases hd)
    (fun u _ h => NetOutcome.noConfusion h)

/-! ### C6 -/

/-- C6: whenever `download_images` returns a count to its caller, that
count is at most the configured limit. -/
theorem success_count_le_limit (env : Env) (s : Scraper) (q : Str) (od : Option Str)
    (c : Nat) (hok : (download_images env s q od).2 = .ok c) : c ≤ s.limit := by
  rw [download_images_count env s q od c hok]
  exact Nat.min_le_left _ _

/-- C6 witness: a two-candidate page under limit 1 returns 1 ≤ 1. -/
theorem success_count_le_limit_witness :
    (1 : Nat) ≤ scraperLim1.limit :=
  success_count_le_limit envAllGood scraperLim1 (chars "q") none 1 rfl

/-! ### C7 -/

/-- C7: configuration normalizes the affixes once (empty stays empty, a
non-empty one gains a `-` separator on the counter side), the zero-pad
width equals the decimal digit count of the configured limit, and every
file a successful download creates is named
`<normalized-affix><zero-padded counter+1><normalized-affix>.<extension>`
inside the output directory. -/
theorem filename_format_and_pad_width (exts : List Str) (od p sfx : Str) (limit : Nat)
    (h : 1 ≤ limit) :
    (initScraper exts od p sfx limit).zfill = (Nat.digits 10 limit).length
    ∧ (initScraper exts od p sfx limit).pre = (if p = [] then [] else p ++ [45])
    ∧ (initScraper exts od p sfx limit).suf = (if sfx = [] then [] else 45 :: sfx)
    ∧ ∀ (env : Env) (s : Scraper) (url : Str),
        lowerStr (extAfterLastDot url) ∈ s.allowed_exts → env.net url = .success →
        (download_image env s url).1.files = s.files ++
          [⟨pathJoin s.output_dir (s.pre ++ zfillPad (natToStr (s.counter + 1)) s.zfill
              ++ s.suf ++ 46 :: extAfterLastDot url), true⟩] := by
  refine ⟨natToStr_length limit h, rfl, rfl, ?_⟩
  intro env s url hacc hnet
  unfold download_image
  rw [if_pos hacc, hnet]

/-- C7 witness: limit 100 gives pad width `digits(100)`, and a successful
download under the limit-3 default scraper creates the assembled name. -/
theorem filename_format_and_pad_width_witness :
    (initScraper defaultExts (chars "/h") (chars "img") (chars "cat") 100).zfill
        = (Nat.digits 10 100).length
    ∧ (download_image envAllGood scraperLim3 (chars "a.jpg")).1.files = scraperLim3.files ++
        [⟨pathJoin scraperLim3.output_dir
            (scraperLim3.pre ++ zfillPad (natToStr (scraperLim3.counter + 1)) scraperLim3.zfill
              ++ scraperLim3.suf ++ 46 :: extAfterLastDot (chars "a.jpg")), true⟩] :=
  ⟨(filename_format_and_pad_width defaultExts (chars "/h") (chars "img") (chars "cat") 100
      (by decide)).1,
   (filename_format_and_pad_width defaultExts (chars "/h") (chars "img") (chars "cat") 100
      (by decide)).2.2.2 envAllGood scraperLim3 (chars "a.jpg") (by decide) rfl⟩

/-! ### C8 -/

/-- C8 counterexample: the URL `http://e.com/a.jpg?v=1.webp`, whose path
is `/a.jpg`. Extraction from the path, as the claim states it, yields
`jpg`, which the default allow-set accepts; the code instead takes the
substring after the last dot of the whole URL — `webp` — and rejects the
candidate, leaving the state untouched. -/
theorem extension_uses_whole_url_not_path_cex :
    lowerStr (extAfterLastDot (urlPathOf (chars "http://e.com/a.jpg?v=1.webp"))) ∈ defaultExts
    ∧ lowerStr (extAfterLastDot (chars "http://e.com/a.jpg?v=1.webp")) ∉ defaultExts
    ∧ download_image envAllGood scraperLim3 (chars "http://e.com/a.jpg?v=1.webp")
        = (scraperLim3, .ok ()) :=
  ⟨by decide, by decide, rfl⟩

/-- C8 (amended): the filter extracts the extension as the substring
after the last `.` of the *whole URL string* (query string and fragment
included), case-folds it, and tests membership in the allow-set; in
particular a URL ending in `.JPG` is accepted under the default
configuration exactly as one ending in `.jpg` is. -/
theorem extension_from_whole_url (exts : List Str) (u t : Str) (ht : 46 ∉ t) :
    extAfterLastDot (u ++ 46 :: t) = t
    ∧ (lowerStr (extAfterLastDot (u ++ 46 :: t)) ∈ exts ↔ lowerStr t ∈ exts)
    ∧ lowerStr (extAfterLastDot (u ++ chars ".JPG")) ∈ defaultExts
    ∧ lowerStr (extAfterLastDot (u ++ chars ".jpg")) ∈ defaultExts := by
  have he := extAfterLastDot_append u t ht
  have hJ : u ++ chars ".JPG" = u ++ 46 :: chars "JPG" := rfl
  have hj : u ++ chars ".jpg" = u ++ 46 :: chars "jpg" := rfl
  refine ⟨he, by rw [he], ?_, ?_⟩
  · rw [hJ, extAfterLastDot_append u (chars "JPG") (by decide)]
    decide
  · rw [hj, extAfterLastDot_append u (chars "jpg") (by decide)]
    decide

/-- C8 witness: concrete instantiation with a dotted head and the
extension `webp`. -/
theorem extension_from_whole_url_witness :
    extAfterLastDot (chars "http://e.com/x" ++ 46 :: chars "webp") = chars "webp"
    ∧ (lowerStr (extAfterLastDot (chars "http://e.com/x" ++ 46 :: chars "webp")) ∈ defaultExts
        ↔ lowerStr (chars "webp") ∈ defaultExts)
    ∧ lowerStr (extAfterLastDot (chars "http://e.com/x" ++ chars ".JPG")) ∈ defaultExts
    ∧ lowerStr (extAfterLastDot (chars "http://e.com/x" ++ chars ".jpg")) ∈ defaultExts :=
  extension_from_whole_url defaultExts (chars "http://e.com/x") (chars "webp") (by decide)

/-! ### C9 -/

/-- C9: calling `download_images` without an explicit output directory
permanently rewrites the object's `output_dir` to the join of its current
value with the underscore-escaped query, so a second such call resolves
inside the first call's directory — a strict extension of it — rather
than beside it under the original base directory. -/
theorem output_dir_nests_on_repeated_default_calls (env : Env) (s : Scraper) (q₁ q₂ : Str)
    (hq : (underscoreQuery q₂).head? ≠ some 47)
    (hq2 : underscoreQuery q₂ ≠ [])
    (hd : pathJoin s.output_dir (underscoreQuery q₁) ≠ []) :
    (download_images env s q₁ none).1.output_dir = pathJoin s.output_dir (underscoreQuery q₁)
    ∧ (download_images env (download_images env s q₁ none).1 q₂ none).1.output_dir
        = pathJoin (pathJoin s.output_dir (underscoreQuery q₁)) (underscoreQuery q₂)
    ∧ ∃ rest, rest ≠ [] ∧
        (download_images env (download_images env s q₁ none).1 q₂ none).1.output_dir
          = pathJoin s.output_dir (underscoreQuery q₁) ++ rest := by
  have h1 : (download_images env s q₁ none).1.output_dir
      = pathJoin s.output_dir (underscoreQuery q₁) :=
    download_images_output_dir env s q₁ none
  have h2 : (download_images env (download_images env s q₁ none).1 q₂ none).1.output_dir
      = pathJoin (download_images env s q₁ none).1.output_dir (underscoreQuery q₂) :=
    download_images_output_dir env _ q₂ none
  rw [h1] at h2
  refine ⟨h1, h2, ?_⟩
  rw [h2]
  exact pathJoin_extends _ _ hq hq2 hd

/-- C9 witness: two default-directory calls with queries `a b` then `c`
resolve to `a_b` and then `a_b/c`, nested. -/
theorem output_dir_nests_on_repeated_default_calls_witness :
    (download_images envAllGood scraperLim1 (chars "a b") none).1.output_dir
        = pathJoin scraperLim1.output_dir (underscoreQuery (chars "a b"))
    ∧ (download_images envAllGood
          (download_images envAllGood scraperLim1 (chars "a b") none).1 (chars "c")
          none).1.output_dir
        = pathJoin (pathJoin scraperLim1.output_dir (underscoreQuery (chars "a b")))
            (underscoreQuery (chars "c"))
    ∧ ∃ rest, rest ≠ [] ∧
        (download_images envAllGood
            (download_images envAllGood scraperLim1 (chars "a b") none).1 (chars "c")
            none).1.output_dir
          = pathJoin scraperLim1.output_dir (underscoreQuery (chars "a b")) ++ rest :=
  output_dir_nests_on_repeated_default_calls envAllGood scraperLim1 (chars "a b") (chars "c")
    (by decide) (by decide) (by decide)

/-! ### C10 -/

/-- C10: the membership test lower-cases only the candidate's extracted
extension and compares it verbatim with the allow-set entries, so an
allow-set entry holding an ASCII uppercase letter is matched by no
candidate URL whatsoever. -/
theorem uppercase_allowlist_entry_never_matches (s : Scraper) (e url : Str)
    (_he : e ∈ s.allowed_exts) (hup : ∃ c ∈ e, 65 ≤ c ∧ c ≤ 90) :
    lowerStr (extAfterLastDot url) ≠ e := by
  rcases hup with ⟨c, hc, hcu⟩
  intro heq
  rw [← heq] at hc
  exact lowerStr_no_upper (extAfterLastDot url) c hc hcu

/-- C10 witness: the configured entry `JPG` does not even match the URL
`x.JPG` whose raw extension is literally `JPG`. -/
theorem uppercase_allowlist_entry_never_matches_witness :
    lowerStr (extAfterLastDot (chars "x.JPG")) ≠ chars "JPG" :=
  uppercase_allowlist_entry_never_matches scraperUpper (chars "JPG") (chars "x.JPG")
    (by decide) ⟨74, by decide, by decide⟩
